import Mathlib

/-! Shallow embedding of `src/lib.rs` of the alderlake-e-cores crate.

Machine integers (`u8`, `u32`, `usize`) are modelled as `Nat` with explicit
`% 256` / `% 2 ^ 32` where the code casts, and overflowing `u8` arithmetic
(which panics in a debug build) is modelled by returning `none`.
Hardware state (the CPUID registers) and the per-index child-process outcome
are passed as explicit parameters.
-/

/-- The public error enum `CoreTypeFetchError` of `lib.rs`. -/
inductive CoreTypeFetchError : Type
  | UnknownCoreType
  | TasksetFailure
  | NotHybridCPU
deriving DecidableEq, Repr

/-- The private enum `CoreType` of `lib.rs`. -/
inductive CoreType : Type
  | P
  | E
deriving DecidableEq, Repr

/-- Captured `std::process::Output`, restricted to the one field the code reads.
`stdout` holds the captured bytes: `some s` models bytes that are valid
UTF-8 and decode (via `std::str::from_utf8`) to the text `s`; `none`
models bytes that are not valid UTF-8. -/
structure Output : Type where
  stdout : Option String
deriving DecidableEq, Repr

/-- Model of `std::io::Result`, with the error payload dropped (the code discards it
with `Err(_)` / `map_err(|_| ...)`). -/
inductive IoResult (α : Type) : Type
  | ok (a : α)
  | err
deriving DecidableEq, Repr

/-- The struct `CorePELayout`: two `Range<u8>` values, each modelled as a
half-open `(start, end)` pair of `Nat`. -/
structure CorePELayout : Type where
  p_cores : Nat × Nat
  e_cores : Nat × Nat
deriving DecidableEq, Repr

/-- Constructor `CorePELayout::new(p_core_end_idx)`: builds
`p_cores = 0..p_core_end_idx` and `e_cores = (p_core_end_idx + 1)..19`.
The `+ 1` is `u8` arithmetic; when `p_core_end_idx = 255` it overflows
(a panic in a debug build), modelled as `none`. -/
def CorePELayout.new (p_core_end_idx : Nat) : Option CorePELayout :=
  if p_core_end_idx + 1 ≤ 255 then
    some { p_cores := (0, p_core_end_idx), e_cores := (p_core_end_idx + 1, 19) }
  else
    none

/-- Parser `CoreType::from_string`: exact match on the two recognised labels. -/
def CoreType.from_string (input : String) : Option CoreType :=
  match input with
  | "P_CORE" => some CoreType.P
  | "E_CORE" => some CoreType.E
  | _ => none

/-- Rust `str::trim`: strips leading and trailing whitespace. Modelled over
the character list of the string (Lean's built-in `String.trim` computes
with byte positions, which the kernel cannot reduce definitionally). -/
def rust_trim (s : String) : String :=
  String.mk
    (((s.data.dropWhile Char.isWhitespace).reverse.dropWhile Char.isWhitespace).reverse)

/-- The per-element closure inside `process_raw_command_out`: an `Ok`
output is UTF-8-decoded (failure short-circuits as `TasksetFailure` via
`?`), trimmed and parsed with `CoreType::from_string`, whose `None` becomes
`UnknownCoreType` via `ok_or`; a spawn/await `Err(_)` becomes `None` and
hence also `UnknownCoreType`. -/
def classify_output (core_type : IoResult Output) : Except CoreTypeFetchError CoreType :=
  match core_type with
  | IoResult.ok c =>
    match c.stdout with
    | none => Except.error CoreTypeFetchError.TasksetFailure
    | some res =>
      match CoreType.from_string (rust_trim res) with
      | some t => Except.ok t
      | none => Except.error CoreTypeFetchError.UnknownCoreType
  | IoResult.err => Except.error CoreTypeFetchError.UnknownCoreType

deriving instance DecidableEq for Except

/-- Aggregator `process_raw_command_out`: classifies every entry, then `partition`s the
classification results on `== Ok(CoreType::P)`; only the length of the first
part is used. `p_and_e.0.len() as u8` is the length mod 256, and
`- 1` on `u8` underflows when that value is 0 (a panic in a debug build),
modelled as `none`. Note that `partition` keeps the `Err` classifications in
the second part instead of propagating them: the function itself never
returns `Err`. The error type mirrors the private unit struct
`UnknownCoreType` as `Unit`. -/
def process_raw_command_out (raw_out : List (IoResult Output)) :
    Option (Except Unit CorePELayout) :=
  let classified := raw_out.map classify_output
  let p_vec := classified.filter (fun ct => decide (ct = Except.ok CoreType.P))
  let p_count := p_vec.length % 256
  if p_count = 0 then
    none
  else
    (CorePELayout.new (p_count - 1)).map Except.ok

/-- Sequential prober `taskset_sync(n_cores)`: runs the probe child for each index in
`0..n_cores` in order, collects the `io::Result<Output>` vector, feeds it to
`process_raw_command_out` and maps its error to `UnknownCoreType`. The
outcome of each child is supplied by the `output` parameter. -/
def taskset_sync (n_cores : Nat) (output : Nat → IoResult Output) :
    Option (Except CoreTypeFetchError CorePELayout) :=
  let cores_raw_strs := (List.range n_cores).map output
  (process_raw_command_out cores_raw_strs).map
    (fun r => r.mapError (fun _ => CoreTypeFetchError.UnknownCoreType))

/-- Completion model for the concurrent strategy: the spawned futures
complete in the order listed by `order`; each completion stores its result
in the slot of its *launch* index (`futures::try_join_all` returns results
in the order the futures were given, not completion order). -/
def run_schedule (order : List Nat) (output : Nat → IoResult Output) :
    Nat → Option (IoResult Output) :=
  order.foldl (fun slots j => fun k => if k = j then some (output j) else slots k)
    (fun _ => none)

/-- Await step `try_join_all` over the slot map: succeeds with the list of results in
launch order when every one of the `n_cores` futures has completed; `none`
models a failed await (which `taskset_async` maps to `TasksetFailure`). -/
def try_join_all (n_cores : Nat) (slots : Nat → Option (IoResult Output)) :
    Option (List (IoResult Output)) :=
  (List.range n_cores).mapM slots

/-- Concurrent prober `taskset_async(n_cores)`: spawns the probe child for each index in
`0..n_cores` (launch order = index order), awaits all of them with
`try_join_all` (a failed await becomes `TasksetFailure`), then feeds the
completed vector to `process_raw_command_out` exactly as the sync path
does. `order` is the completion schedule of the spawned futures. -/
def taskset_async (n_cores : Nat) (order : List Nat) (output : Nat → IoResult Output) :
    Option (Except CoreTypeFetchError CorePELayout) :=
  match try_join_all n_cores (run_schedule order output) with
  | none => some (Except.error CoreTypeFetchError.TasksetFailure)
  | some completed =>
    (process_raw_command_out completed).map
      (fun r => r.mapError (fun _ => CoreTypeFetchError.UnknownCoreType))

/-- Feature detector `is_hybrid()`: reads CPUID leaf 0x07 subleaf 0 and tests
`(1 & (edx >> (15 - 1))) == 1`. The EDX register value is the parameter. -/
def is_hybrid (edx : Nat) : Bool :=
  1 &&& (edx >>> (15 - 1)) == 1

/-- Entry point `get_pe_partition_sync()`: gated by `is_hybrid`, then calls
`taskset_sync(num_cpus::get() as u8)`. The hybrid feature bit outcome and
the logical CPU count are parameters; `as u8` truncates mod 256. -/
def get_pe_partition_sync (hybrid : Bool) (num_cpus : Nat)
    (output : Nat → IoResult Output) :
    Option (Except CoreTypeFetchError CorePELayout) :=
  if !hybrid then some (Except.error CoreTypeFetchError.NotHybridCPU)
  else taskset_sync (num_cpus % 256) output

/-- Entry point `get_pe_partition_async()`: gated by `is_hybrid`, then calls
`taskset_async(num_cpus::get() as u8)` under completion schedule `order`. -/
def get_pe_partition_async (hybrid : Bool) (num_cpus : Nat) (order : List Nat)
    (output : Nat → IoResult Output) :
    Option (Except CoreTypeFetchError CorePELayout) :=
  if !hybrid then some (Except.error CoreTypeFetchError.NotHybridCPU)
  else taskset_async (num_cpus % 256) order output

/-- Rust `{:0wb}` formatting: minimal binary digits (just `0` for zero),
left-padded with zeros to width `w`. -/
def rust_binary (w n : Nat) : String :=
  let digits := Nat.toDigits 2 n
  String.mk (List.replicate (w - digits.length) '0' ++ digits)

/-- Core-type oracle `test_core()`: reads CPUID leaf 0x1A subleaf 0 and matches on
`eax >> 24`; the default arm formats the diagnostic string with the top
byte (`x as u8`, i.e. mod 256) in 8-bit binary and the full register in
32-bit binary. The EAX register value is the parameter. -/
def test_core (eax : Nat) : String :=
  match eax >>> 24 with
  | 64 => "P_CORE"
  | 32 => "E_CORE"
  | x =>
    "UNRECOGNISED: indicator-range=" ++ rust_binary 8 (x % 256) ++
      ", eax_reg=" ++ rust_binary 32 eax

/-- Membership of an index in a half-open `(start, end)` range. -/
def mem_range (r : Nat × Nat) (i : Nat) : Bool :=
  decide (r.1 ≤ i) && decide (i < r.2)

/-- The partition invariant claimed by the spec for a layout over `n`
logical CPUs: `p_cores` starts at 0, `e_cores` ends at `n - 1` (half-open
end `n`), and every index in `[0, n)` lies in exactly one of the two
ranges (adjacent, no gap, no overlap). -/
def layout_partitions (L : CorePELayout) (n : Nat) : Bool :=
  (L.p_cores.1 == 0) && (L.e_cores.2 == n) &&
    ((List.range n).all (fun i => mem_range L.p_cores i ^^ mem_range L.e_cores i))

/-- Helper for the concurrent strategy: the slot map produced by folding a
completion schedule holds, at index `i`, the result of probe `i` whenever
`i` completed somewhere in the schedule, and the initial slot content
otherwise (every completion of probe `i` writes the same value). -/
theorem run_schedule_apply (output : Nat → IoResult Output) :
    ∀ (order : List Nat) (init : Nat → Option (IoResult Output)) (i : Nat),
      (order.foldl (fun slots j => fun k => if k = j then some (output j) else slots k)
          init) i
        = if i ∈ order then some (output i) else init i := by
  intro order
  induction order with
  | nil => intro init i; simp
  | cons j rest ih =>
    intro init i
    rw [List.foldl_cons, ih]
    by_cases hr : i ∈ rest
    · simp [hr]
    · by_cases hij : i = j
      · subst hij; simp [hr]
      · simp [hr, hij]

/-- Helper: `mapM` over `Option` succeeds with the mapped list when the
function succeeds on every element. -/
theorem mapM_eq_map_of_all_some {α β : Type} (f : α → Option β) (g : α → β) :
    ∀ l : List α, (∀ a, a ∈ l → f a = some (g a)) → l.mapM f = some (l.map g) := by
  intro l
  induction l with
  | nil => intro _; rfl
  | cons a rest ih =>
    intro h
    have h1 := h a (List.mem_cons_self a rest)
    have h2 := ih (fun b hb => h b (List.mem_cons_of_mem a hb))
    rw [List.mapM_cons]
    simp only [h1, h2]
    rfl

/-- C1: refuted as stated. On the valid label sequence `[P, E]` (length
`n = 2`, `p_count = 1`) the aggregator returns the layout
`p_cores = 0..0, e_cores = 1..19`: index 0 lies in neither half-open range
and `e_cores` ends at the hard-coded 19, not at `n - 1`, so the two ranges
do not partition `[0, n)`. -/
theorem process_raw_command_out_breaks_partition_invariant :
    process_raw_command_out
        [IoResult.ok (Output.mk (some ("P_CORE"))), IoResult.ok (Output.mk (some ("E_CORE")))]
      = some (Except.ok ⟨(0, 0), (1, 19)⟩) ∧
    layout_partitions ⟨(0, 0), (1, 19)⟩ 2 = false := by decide

/-- Probe outcomes for C2: child 0 prints the unrecognised label `X_CORE`,
child 1 prints a valid `P_CORE`. -/
def c2_probe (i : Nat) : IoResult Output :=
  IoResult.ok (Output.mk (some (if i = 0 then "X_CORE" else "P_CORE")))

/-- C2: refuted as stated. With one child printing `X_CORE` and the other a
valid `P_CORE`, `taskset_sync` does not fail with `UnknownCoreType`: the
`partition` call keeps the per-probe error in its second component instead
of propagating it, so a partial layout (the bad index counted as non-P) is
returned. -/
theorem taskset_sync_returns_layout_despite_unknown_label :
    taskset_sync 2 c2_probe = some (Except.ok ⟨(0, 0), (1, 19)⟩) ∧
    taskset_sync 2 c2_probe ≠ some (Except.error CoreTypeFetchError.UnknownCoreType) := by
  decide

/-- Probe outcomes for C3: spawning child 0 fails with an io error, child 1
prints a valid `P_CORE`. -/
def c3_probe (i : Nat) : IoResult Output :=
  if i = 0 then IoResult.err else IoResult.ok (Output.mk (some ("P_CORE")))

/-- C3: refuted as stated. With one child spawn failing and the other
printing a valid `P_CORE`, `taskset_sync` does not fail with
`TasksetFailure`: the spawn error is mapped to `None`, turned into an
`UnknownCoreType` value, and then discarded by `partition`, so a layout
with the failed index counted as non-P is returned. -/
theorem taskset_sync_returns_layout_despite_spawn_error :
    taskset_sync 2 c3_probe = some (Except.ok ⟨(0, 0), (1, 19)⟩) ∧
    taskset_sync 2 c3_probe ≠ some (Except.error CoreTypeFetchError.TasksetFailure) := by
  decide

/-- Probe outcomes for C4: indices 0..5 print `P_CORE`, indices 6 and 7
print `E_CORE`. -/
def c4_probe (i : Nat) : IoResult Output :=
  IoResult.ok (Output.mk (some (if i < 6 then "P_CORE" else "E_CORE")))

/-- C4: refuted as stated. With the hybrid bit set, 8 logical CPUs and
probe labels `[P,P,P,P,P,P,E,E]` the code produces
`p_cores = 0..5, e_cores = 6..19` (the e-range end is the hard-coded 19),
not `e_cores = 6..7` as the claim states. -/
theorem eight_cpus_layout_e_end_hardcoded :
    get_pe_partition_sync true 8 c4_probe = some (Except.ok ⟨(0, 5), (6, 19)⟩) ∧
    get_pe_partition_sync true 8 c4_probe ≠ some (Except.ok ⟨(0, 5), (6, 7)⟩) := by
  decide

/-- C5: with the hybrid feature bit unset, both entry points return
`NotHybridCPU`, and the result does not depend on the prober (the `output`
and `order` parameters are arbitrary), so no child process is consulted. -/
theorem get_pe_partition_not_hybrid_short_circuits (num_cpus : Nat) (order : List Nat)
    (output : Nat → IoResult Output) :
    get_pe_partition_sync false num_cpus output
        = some (Except.error CoreTypeFetchError.NotHybridCPU) ∧
    get_pe_partition_async false num_cpus order output
        = some (Except.error CoreTypeFetchError.NotHybridCPU) :=
  ⟨rfl, rfl⟩

/-- C9: `is_hybrid` returns true exactly when bit 14 of EDX is set (the
shift amount in the code is `15 - 1`), and in particular a value with only
bit 15 set is rejected while one with only bit 14 set is accepted. -/
theorem is_hybrid_reads_bit_14 :
    (∀ edx : Nat, is_hybrid edx = edx.testBit 14) ∧
    is_hybrid (2 ^ 15) = false ∧ is_hybrid (2 ^ 14) = true := by
  refine ⟨?_, by decide, by decide⟩
  intro edx
  simp only [is_hybrid, Nat.testBit]
  rcases Nat.mod_two_eq_zero_or_one (edx >>> 14) with h | h <;>
    simp [Nat.one_and_eq_mod_two, h]

/-- C10: `CorePELayout::new` is not total over its `u8` argument: at 255
the `p_core_end_idx + 1` computation overflows `u8` (modelled as `none`),
while for every argument up to 254 it returns
`p_cores = 0..p_core_end_idx` and `e_cores = (p_core_end_idx + 1)..19`. -/
theorem core_pe_layout_new_totality :
    CorePELayout.new 255 = none ∧
    ∀ p_core_end_idx : Nat, p_core_end_idx ≤ 254 →
      CorePELayout.new p_core_end_idx
        = some ⟨(0, p_core_end_idx), (p_core_end_idx + 1, 19)⟩ := by
  constructor
  · rfl
  · intro i hi
    unfold CorePELayout.new
    rw [if_pos (by omega)]

/-- Witness for C10 at the concrete argument 15. -/
theorem core_pe_layout_new_totality_witness :
    CorePELayout.new 15 = some ⟨(0, 15), (16, 19)⟩ :=
  core_pe_layout_new_totality.2 15 (by decide)

/-- C8: whenever no entry of the probe-output vector classifies as
`Ok(CoreType::P)`, the `p_count - 1` computation in
`process_raw_command_out` underflows `u8` (modelled as `none`): the
boundary computation is not total at `p_count = 0`. -/
theorem process_raw_command_out_underflow_at_zero_p (raw_out : List (IoResult Output))
    (h : ((raw_out.map classify_output).filter
        (fun ct => decide (ct = Except.ok CoreType.P))).length = 0) :
    process_raw_command_out raw_out = none := by
  simp only [process_raw_command_out, h]
  rfl

/-- Witness for C8 on the concrete one-element vector whose child printed
`E_CORE`. -/
theorem process_raw_command_out_underflow_at_zero_p_witness :
    ((([IoResult.ok (Output.mk (some ("E_CORE")))]).map classify_output).filter
        (fun ct => decide (ct = Except.ok CoreType.P))).length = 0 ∧
    process_raw_command_out [IoResult.ok (Output.mk (some ("E_CORE")))] = none :=
  ⟨by decide, process_raw_command_out_underflow_at_zero_p _ (by decide)⟩

/-- C6: for every 32-bit EAX value of the hybrid-topology leaf,
`test_core` returns `P_CORE` when the top byte (`eax >> 24`) is 64,
`E_CORE` when it is 32, and otherwise the diagnostic string carrying the
raw top byte in 8-bit binary and the full register in 32-bit binary. -/
theorem test_core_classification (eax : Nat) (h : eax < 2 ^ 32) :
    (eax >>> 24 = 64 → test_core eax = "P_CORE") ∧
    (eax >>> 24 = 32 → test_core eax = "E_CORE") ∧
    (eax >>> 24 ≠ 64 → eax >>> 24 ≠ 32 →
      test_core eax =
        "UNRECOGNISED: indicator-range=" ++ rust_binary 8 (eax >>> 24) ++
          ", eax_reg=" ++ rust_binary 32 eax) := by
  have hb : eax >>> 24 < 256 := by
    rw [Nat.shiftRight_eq_div_pow]
    have h2 : eax < 256 * 2 ^ 24 := by norm_num at h ⊢; omega
    exact Nat.div_lt_of_lt_mul (by omega)
  refine ⟨?_, ?_, ?_⟩
  · intro h64
    unfold test_core
    split
    · rfl
    · rename_i x heq
      omega
    · rename_i x hx64 hx32
      exact absurd h64 hx64
  · intro h32
    unfold test_core
    split
    · rename_i x heq
      omega
    · rfl
    · rename_i x hx64 hx32
      exact absurd h32 hx32
  · intro h64 h32
    unfold test_core
    split
    · rename_i x heq
      exact absurd heq h64
    · rename_i x heq
      exact absurd heq h32
    · rename_i x hx64 hx32
      rw [Nat.mod_eq_of_lt hb]

/-- Witness for C6 at the concrete register value 5 (top byte 0, the
unrecognised arm). -/
theorem test_core_classification_witness :
    test_core 5 =
      "UNRECOGNISED: indicator-range=" ++ rust_binary 8 (5 >>> 24) ++
        ", eax_reg=" ++ rust_binary 32 5 :=
  (test_core_classification 5 (by decide)).2.2 (by decide) (by decide)

/-- C7: for the same underlying per-index child outputs, the concurrent
strategy under any completion schedule in which every launched probe
completes yields exactly the result of the sequential strategy: results
are associated with launch indices, so the label-to-index mapping and the
final layout or error agree. -/
theorem taskset_async_eq_taskset_sync (n_cores : Nat) (order : List Nat)
    (output : Nat → IoResult Output) (h : ∀ i, i < n_cores → i ∈ order) :
    taskset_async n_cores order output = taskset_sync n_cores output := by
  have hslots : ∀ i, i ∈ List.range n_cores →
      run_schedule order output i = some (output i) := by
    intro i hi
    simp only [run_schedule]
    rw [run_schedule_apply, if_pos (h i (List.mem_range.mp hi))]
  have hjoin : try_join_all n_cores (run_schedule order output)
      = some ((List.range n_cores).map output) := by
    simp only [try_join_all]
    exact mapM_eq_map_of_all_some _ output _ hslots
  simp only [taskset_async, hjoin, taskset_sync]

/-- Probe outcomes for the C7 witness: index 0 reports `P_CORE`, index 1
reports `E_CORE`. -/
def c7_probe (i : Nat) : IoResult Output :=
  IoResult.ok (Output.mk (some (if i = 0 then "P_CORE" else "E_CORE")))

/-- Witness for C7: two probes completing in reversed order agree with the
sequential run. -/
theorem taskset_async_eq_taskset_sync_witness :
    taskset_async 2 [1, 0] c7_probe = taskset_sync 2 c7_probe :=
  taskset_async_eq_taskset_sync 2 [1, 0] c7_probe (by decide)
